import Mathlib

/-!
Verification of the authoritative game-engine core of the
Survival-of-a-sword-king repository (EcoHistoryForge server).

The definitions below are a shallow embedding of
server/gameEngine.ts (class GameEngine and class DatabaseStorage),
server/routes.ts (the rebirth endpoint), and the relevant columns of
shared/schema.ts.  JavaScript numbers holding integer database columns
are modelled as Int; real-valued columns (3D positions, difficulty
multiplier) as Rat; Date.now() timestamps are Int parameters threaded
through the operations.  Math.floor applied to a rational-valued
expression is Int.floor on Rat; Math.floor(a / b) on integer values is
Int.fdiv.  The storage layer (a SQL database accessed row-by-row) is
modelled as lists of rows; a partial drizzle update object is a record
of Option fields applied with applyUpdates.
-/

namespace SwordKing

/-- Player row, from the "players" table of shared/schema.ts (the columns
the engine core reads or writes). -/
structure Player where
  id : String
  level : Int
  experience : Int
  rebirthCycle : Int
  health : Int
  maxHealth : Int
  aura : Int
  maxAura : Int
  hiddenStrength : Int
  hiddenAgility : Int
  hiddenIntelligence : Int
  hiddenEndurance : Int
  positionX : Rat
  positionY : Rat
  positionZ : Rat
  isOnline : Bool
  deriving Repr, DecidableEq

/-- Monster row, from the "monsters" table of shared/schema.ts. -/
structure Monster where
  id : String
  name : String
  level : Int
  health : Int
  maxHealth : Int
  positionX : Rat
  positionY : Rat
  positionZ : Rat
  zone : String
  difficultyMultiplier : Rat
  isAlive : Bool
  deriving Repr, DecidableEq

/-- AbilityDefinition interface of gameEngine.ts. -/
structure AbilityDefinition where
  name : String
  auraCost : Int
  damage : Int
  range : Int
  cooldown : Int
  requiredLevel : Int
  deriving Repr, DecidableEq

/-- AbilityResult interface of gameEngine.ts.  Fields that the source
leaves undefined on some paths (damage, targetId) are Options. -/
structure AbilityResult where
  success : Bool
  damage : Option Int
  abilityUsed : String
  playerId : String
  targetId : Option String
  message : String
  auraCost : Int
  deriving Repr, DecidableEq

/-- A drizzle partial-update object for a player row: only the fields the
engine ever writes.  A field that is none is left untouched. -/
structure PlayerUpdates where
  level : Option Int := none
  experience : Option Int := none
  rebirthCycle : Option Int := none
  health : Option Int := none
  maxHealth : Option Int := none
  aura : Option Int := none
  maxAura : Option Int := none
  hiddenStrength : Option Int := none
  hiddenAgility : Option Int := none
  hiddenIntelligence : Option Int := none
  hiddenEndurance : Option Int := none
  deriving Repr, DecidableEq

/-- Apply a partial update to a player row (drizzle .set on that row). -/
def applyUpdates (p : Player) (u : PlayerUpdates) : Player :=
  { p with
    level := u.level.getD p.level
    experience := u.experience.getD p.experience
    rebirthCycle := u.rebirthCycle.getD p.rebirthCycle
    health := u.health.getD p.health
    maxHealth := u.maxHealth.getD p.maxHealth
    aura := u.aura.getD p.aura
    maxAura := u.maxAura.getD p.maxAura
    hiddenStrength := u.hiddenStrength.getD p.hiddenStrength
    hiddenAgility := u.hiddenAgility.getD p.hiddenAgility
    hiddenIntelligence := u.hiddenIntelligence.getD p.hiddenIntelligence
    hiddenEndurance := u.hiddenEndurance.getD p.hiddenEndurance }

/-- Lookup in an association list, modelling JavaScript Map.get. -/
def alistGet {α : Type} (m : List (String × α)) (k : String) : Option α :=
  (m.find? (fun e => e.1 == k)).map (fun e => e.2)

/-- Update or insert in an association list, modelling JavaScript Map.set. -/
def alistSet {α : Type} : List (String × α) → String → α → List (String × α)
  | [], k, v => [(k, v)]
  | e :: rest, k, v => if e.1 == k then (k, v) :: rest else e :: alistSet rest k v

/-- Whole engine state: the player and monster tables of the database plus
the in-memory playerCooldowns map of GameEngine (player id to ability name
to absolute expiry timestamp). -/
structure World where
  players : List Player
  monsters : List Monster
  cooldowns : List (String × List (String × Int))
  deriving Repr, DecidableEq

/-- The stone_bullet entry of GameEngine.initializeAbilities. -/
def stoneBullet : AbilityDefinition :=
  { name := "Stone Bullet", auraCost := 50, damage := 150, range := 30,
    cooldown := 2000, requiredLevel := 1 }

/-- The wind_manipulation entry of GameEngine.initializeAbilities. -/
def windManipulation : AbilityDefinition :=
  { name := "Wind Manipulation", auraCost := 75, damage := 200, range := 15,
    cooldown := 3000, requiredLevel := 15 }

/-- The ground_dig_up entry of GameEngine.initializeAbilities. -/
def groundDigUp : AbilityDefinition :=
  { name := "Ground Dig-Up", auraCost := 100, damage := 300, range := 10,
    cooldown := 5000, requiredLevel := 60 }

/-- The aura_release entry of GameEngine.initializeAbilities. -/
def auraRelease : AbilityDefinition :=
  { name := "Aura Release", auraCost := 200, damage := 500, range := 25,
    cooldown := 10000, requiredLevel := 85 }

/-- Lookup in the abilities map built by GameEngine.initializeAbilities
(four fixed entries, keyed by the wire identifiers). -/
def abilitiesGet (k : String) : Option AbilityDefinition :=
  if k == "stone_bullet" then some stoneBullet
  else if k == "wind_manipulation" then some windManipulation
  else if k == "ground_dig_up" then some groundDigUp
  else if k == "aura_release" then some auraRelease
  else none

/-- ASCII lower-casing of one character, as String.prototype.toLowerCase
acts on the ASCII ability names used by the engine. -/
def jsLowerChar (c : Char) : Char :=
  if 'A' ≤ c ∧ c ≤ 'Z' then Char.ofNat (c.toNat + 32) else c

/-- String.prototype.toLowerCase on ASCII strings. -/
def jsToLower (s : String) : String := String.mk (s.data.map jsLowerChar)

/-- String.prototype.replace with a plain-string pattern replaces only the
first occurrence; here the pattern is a single space and the replacement
an underscore. -/
def replaceFirstSpace : List Char → List Char
  | [] => []
  | c :: cs => if c == ' ' then '_' :: cs else c :: replaceFirstSpace cs

/-- The name normalization on line 84 of gameEngine.ts:
abilityName.toLowerCase().replace(" ", "_"). -/
def normalizeAbilityName (s : String) : String :=
  String.mk (replaceFirstSpace (jsToLower s).data)

/-- Ability lookup performed by GameEngine.useAbility:
this.abilities.get(abilityName.toLowerCase().replace(" ", "_")). -/
def resolveAbility (s : String) : Option AbilityDefinition :=
  abilitiesGet (normalizeAbilityName s)

/-- DatabaseStorage.getPlayer: select the row whose id matches. -/
def getPlayer (w : World) (id : String) : Option Player :=
  w.players.find? (fun p => p.id == id)

/-- DatabaseStorage.updatePlayer: set the given fields on the rows whose id
matches (the id column is the primary key, so at most one row in a
well-formed database). -/
def updatePlayer (w : World) (id : String) (u : PlayerUpdates) : World :=
  { w with players := w.players.map (fun p => if p.id == id then applyUpdates p u else p) }

/-- DatabaseStorage.getMonstersInZone: rows of the zone that are alive. -/
def getMonstersInZone (w : World) (zone : String) : List Monster :=
  w.monsters.filter (fun m => m.zone == zone && m.isAlive)

/-- DatabaseStorage.updateMonster as called from useAbility: the partial
update there sets exactly the health column. -/
def updateMonsterHealth (w : World) (id : String) (newHealth : Int) : World :=
  { w with monsters := w.monsters.map (fun m => if m.id == id then { m with health := newHealth } else m) }

/-- DatabaseStorage.deleteMonster: a soft delete setting isAlive to false. -/
def deleteMonster (w : World) (id : String) : World :=
  { w with monsters := w.monsters.map (fun m => if m.id == id then { m with isAlive := false } else m) }

/-- GameEngine.isOnCooldown.  The source reads
cooldownEnd ? Date.now() < cooldownEnd : false, so a zero expiry (falsy)
reads as not-on-cooldown. -/
def isOnCooldown (w : World) (now : Int) (playerId abilityName : String) : Bool :=
  match alistGet w.cooldowns playerId with
  | none => false
  | some pcd =>
    match alistGet pcd abilityName with
    | none => false
    | some cooldownEnd => if cooldownEnd == 0 then false else decide (now < cooldownEnd)

/-- GameEngine.getRemainingCooldown, with the same falsy-zero reading. -/
def getRemainingCooldown (w : World) (now : Int) (playerId abilityName : String) : Int :=
  match alistGet w.cooldowns playerId with
  | none => 0
  | some pcd =>
    match alistGet pcd abilityName with
    | none => 0
    | some cooldownEnd => if cooldownEnd == 0 then 0 else max 0 (cooldownEnd - now)

/-- GameEngine.setCooldown: expiry = Date.now() + duration under the raw
(un-normalized) ability name. -/
def setCooldown (w : World) (now : Int) (playerId abilityName : String) (duration : Int) : World :=
  let pcd := (alistGet w.cooldowns playerId).getD []
  { w with cooldowns := alistSet w.cooldowns playerId (alistSet pcd abilityName (now + duration)) }

/-- GameEngine.isInRange.  The source compares
sqrt(dx*dx + dy*dy + dz*dz) <= range; over the nonnegative range this is
equivalent to the square comparison used here (Rat has no sqrt). -/
def isInRange (player : Player) (monster : Monster) (range : Rat) : Bool :=
  let dx := player.positionX - monster.positionX
  let dy := player.positionY - monster.positionY
  let dz := player.positionZ - monster.positionZ
  decide (dx * dx + dy * dy + dz * dz ≤ range * range)

/-- GameEngine.findNearbyMonster: among the alive monsters of the
hardcoded zone, the one with the requested id within range 50. -/
def findNearbyMonster (w : World) (player : Player) (targetId : String) : Option Monster :=
  (getMonstersInZone w "selha_latna").find? (fun m => m.id == targetId && isInRange player m 50)

/-- GameEngine.awardExperience.  newLevel = Math.floor(newExp / 100) + 1;
the level-up branch runs only when newLevel exceeds the current level and
is at most 100, and then also rescales the maxima and fully restores
health and aura. -/
def awardExperience (w : World) (player : Player) (exp : Int) : World :=
  let newExp := player.experience + exp
  let newLevel := Int.fdiv newExp 100 + 1
  let updates : PlayerUpdates :=
    if newLevel > player.level ∧ newLevel ≤ 100 then
      { experience := some newExp
        level := some newLevel
        maxHealth := some (1000 + newLevel * 50)
        maxAura := some (500 + newLevel * 25)
        health := some (1000 + newLevel * 50)
        aura := some (500 + newLevel * 25) }
    else
      { experience := some newExp }
  updatePlayer w player.id updates

/-- GameEngine.useAbility.  The validation pipeline short-circuits with
structured failures; on success the aura cost is deducted, the cooldown is
armed under the raw ability name, and an optional valid target takes
damage, with the kill path soft-deleting the monster and awarding
experience.  dropLoot only inserts world-loot rows drawn from
Math.random() and touches neither players, monsters nor cooldowns, so it
is not modelled in this state. -/
def useAbility (w : World) (now : Int) (playerId abilityName : String)
    (targetId : Option String) : AbilityResult × World :=
  match getPlayer w playerId with
  | none =>
    ({ success := false, damage := none, abilityUsed := abilityName, playerId := playerId,
       targetId := none, message := "Player not found", auraCost := 0 }, w)
  | some player =>
    match resolveAbility abilityName with
    | none =>
      ({ success := false, damage := none, abilityUsed := abilityName, playerId := playerId,
         targetId := none, message := "Unknown ability", auraCost := 0 }, w)
    | some ability =>
      if player.level < ability.requiredLevel then
        ({ success := false, damage := none, abilityUsed := abilityName, playerId := playerId,
           targetId := none, message := "Requires level " ++ toString ability.requiredLevel,
           auraCost := ability.auraCost }, w)
      else if player.aura < ability.auraCost then
        ({ success := false, damage := none, abilityUsed := abilityName, playerId := playerId,
           targetId := none, message := "Not enough aura", auraCost := ability.auraCost }, w)
      else if isOnCooldown w now playerId abilityName then
        ({ success := false, damage := none, abilityUsed := abilityName, playerId := playerId,
           targetId := none,
           message := "Ability on cooldown (" ++
             toString (getRemainingCooldown w now playerId abilityName) ++ "ms remaining)",
           auraCost := ability.auraCost }, w)
      else
        let totalDamage := ability.damage + Int.floor ((player.hiddenStrength : Rat) * (1 / 10))
        let w1 := updatePlayer w playerId { aura := some (player.aura - ability.auraCost) }
        let w2 := setCooldown w1 now playerId abilityName ability.cooldown
        let w3 :=
          match targetId with
          | none => w2
          | some tid =>
            match findNearbyMonster w2 player tid with
            | none => w2
            | some monster =>
              let newHealth := max 0 (monster.health - totalDamage)
              let w3a := updateMonsterHealth w2 monster.id newHealth
              if newHealth ≤ 0 then
                let w3b := deleteMonster w3a monster.id
                let expGain :=
                  Int.floor ((monster.level * 10 : Rat) * (1 + (player.rebirthCycle : Rat) * (1 / 10)))
                awardExperience w3b player expGain
              else
                w3a
        ({ success := true, damage := some totalDamage, abilityUsed := abilityName,
           playerId := playerId, targetId := targetId,
           message := "Used " ++ ability.name ++ " for " ++ toString totalDamage ++ " damage",
           auraCost := ability.auraCost }, w3)

/-- Capped health after one Regenerator tick for one online player:
Math.min(maxHealth, health + Math.floor(maxHealth * 0.01)). -/
def regenHealth (p : Player) : Int :=
  min p.maxHealth (p.health + Int.floor ((p.maxHealth : Rat) * (1 / 100)))

/-- Capped aura after one Regenerator tick for one online player:
Math.min(maxAura, aura + Math.floor(maxAura * 0.02)). -/
def regenAura (p : Player) : Int :=
  min p.maxAura (p.aura + Int.floor ((p.maxAura : Rat) * (2 / 100)))

/-- The storage update the Regenerator issues for one player, if any: the
source only calls updatePlayer when healthRegen or auraRegen differs from
the current value, and then writes exactly the health and aura columns. -/
def regenUpdates (p : Player) : Option PlayerUpdates :=
  if regenHealth p ≠ p.health ∨ regenAura p ≠ p.aura then
    some { health := some (regenHealth p), aura := some (regenAura p) }
  else none

/-- Net effect of one Regenerator tick on one online player row. -/
def regenTickPlayer (p : Player) : Player :=
  match regenUpdates p with
  | some u => applyUpdates p u
  | none => p

/-- Outcome of POST /api/game/rebirth/:playerId in routes.ts: 404 when the
player is missing, 400 below level 100, 500 when the storage call throws,
200 with the reborn player otherwise. -/
inductive RebirthResponse where
  | notFound
  | levelTooLow
  | ok (player : Player)
  | serverError
  deriving Repr, DecidableEq

/-- DatabaseStorage.performRebirth.  statGains = Math.floor(level * 10);
the update resets level, experience, health, aura and their maxima and adds
statGains to each of the four hidden stats.  The drizzle .returning() row
is, for the primary-key id, the updated row applyUpdates player updates;
a missing player makes the source throw, modelled as none. -/
def performRebirth (w : World) (playerId : String) : Option (Player × World) :=
  match getPlayer w playerId with
  | none => none
  | some player =>
    let statGains := Int.floor ((player.level : Rat) * 10)
    let updates : PlayerUpdates :=
      { level := some 1
        experience := some 0
        rebirthCycle := some (player.rebirthCycle + 1)
        health := some 1000
        maxHealth := some 1000
        aura := some 500
        maxAura := some 500
        hiddenStrength := some (player.hiddenStrength + statGains)
        hiddenAgility := some (player.hiddenAgility + statGains)
        hiddenIntelligence := some (player.hiddenIntelligence + statGains)
        hiddenEndurance := some (player.hiddenEndurance + statGains) }
    some (applyUpdates player updates, updatePlayer w playerId updates)

/-- The rebirth endpoint of routes.ts: gate on existence and level 100,
then delegate to DatabaseStorage.performRebirth. -/
def rebirthRoute (w : World) (playerId : String) : RebirthResponse × World :=
  match getPlayer w playerId with
  | none => (RebirthResponse.notFound, w)
  | some player =>
    if player.level < 100 then (RebirthResponse.levelTooLow, w)
    else
      match performRebirth w player.id with
      | none => (RebirthResponse.serverError, w)
      | some (p, w1) => (RebirthResponse.ok p, w1)

/-- World-loot row, from the "world_loot" table of shared/schema.ts;
timestamps are Int. -/
structure WorldLootRow where
  id : String
  itemId : String
  quantity : Int
  positionX : Rat
  positionY : Rat
  positionZ : Rat
  zone : String
  droppedBy : Option String
  spawnedAt : Int
  expiresAt : Int
  deriving Repr, DecidableEq

/-- Player-inventory row, from the "player_inventory" table. -/
structure InventoryRow where
  id : String
  playerId : String
  itemId : String
  quantity : Int
  deriving Repr, DecidableEq

/-- The tables DatabaseStorage.collectWorldLoot touches. -/
structure LootStore where
  worldLoot : List WorldLootRow
  inventory : List InventoryRow
  deriving Repr, DecidableEq

/-- DatabaseStorage.addToInventory: grow an existing (player, item) stack
or insert a fresh row; freshId stands for the generated row id. -/
def addToInventory (st : LootStore) (freshId playerId itemId : String) (quantity : Int) : LootStore :=
  match st.inventory.find? (fun e => e.playerId == playerId && e.itemId == itemId) with
  | some existing =>
    { st with inventory := st.inventory.map (fun e =>
        if e.id == existing.id then { e with quantity := existing.quantity + quantity } else e) }
  | none =>
    { st with inventory := st.inventory ++
        [{ id := freshId, playerId := playerId, itemId := itemId, quantity := quantity }] }

/-- DatabaseStorage.collectWorldLoot: select the row with the requested id
whose expiresAt > now(); on a miss return false with no mutation, on a hit
add the stack to the collector and delete the world-loot row. -/
def collectWorldLoot (st : LootStore) (now : Int) (freshId playerId lootId : String) :
    Bool × LootStore :=
  match st.worldLoot.find? (fun l => l.id == lootId && decide (now < l.expiresAt)) with
  | none => (false, st)
  | some loot =>
    let st1 := addToInventory st freshId playerId loot.itemId loot.quantity
    (true, { st1 with worldLoot := st1.worldLoot.filter (fun l => !(l.id == lootId)) })

/-- Whether the first list is an initial segment of the second. -/
def beginsWith : List Char → List Char → Bool
  | [], _ => true
  | _ :: _, [] => false
  | c :: cs, d :: ds => c == d && beginsWith cs ds

/-- Whether pat occurs contiguously inside the second list. -/
def hasSubChars (pat : List Char) : List Char → Bool
  | [] => pat.isEmpty
  | c :: cs => beginsWith pat (c :: cs) || hasSubChars pat cs

/-- Substring containment, for the specification phrase "message contains
a given text". -/
def strContains (s pat : String) : Bool := hasSubChars pat.data s.data

/-- The data-model bounds of section 3 of the spec for one player:
0 <= health <= maxHealth and 0 <= aura <= maxAura. -/
def playerBounds (p : Player) : Prop :=
  0 ≤ p.health ∧ p.health ≤ p.maxHealth ∧ 0 ≤ p.aura ∧ p.aura ≤ p.maxAura

instance playerBoundsDec : DecidablePred playerBounds := fun p =>
  decidable_of_iff (0 ≤ p.health ∧ p.health ≤ p.maxHealth ∧ 0 ≤ p.aura ∧ p.aura ≤ p.maxAura)
    Iff.rfl

/-- Well-formedness of the database state, as guaranteed by the schema and
the data model of the spec: the player id column is a primary key, every
player satisfies the bounds with nonnegative experience and rebirth cycle,
and monster levels are nonnegative (spawned levels are 10 to 99). -/
def wellFormed (w : World) : Prop :=
  (w.players.map Player.id).Nodup ∧
  (∀ p ∈ w.players, playerBounds p ∧ 0 ≤ p.experience ∧ 0 ≤ p.rebirthCycle) ∧
  (∀ m ∈ w.monsters, 0 ≤ m.level)

instance wellFormedDec (w : World) : Decidable (wellFormed w) :=
  decidable_of_iff ((w.players.map Player.id).Nodup ∧
    (∀ p ∈ w.players, playerBounds p ∧ 0 ≤ p.experience ∧ 0 ≤ p.rebirthCycle) ∧
    (∀ m ∈ w.monsters, 0 ≤ m.level)) Iff.rfl

/-- Fixture: a level-60 player at the origin with full pools. -/
def basePlayer : Player :=
  { id := "p1", level := 60, experience := 0, rebirthCycle := 0,
    health := 1000, maxHealth := 1000, aura := 500, maxAura := 500,
    hiddenStrength := 0, hiddenAgility := 0, hiddenIntelligence := 0, hiddenEndurance := 0,
    positionX := 0, positionY := 0, positionZ := 0, isOnline := true }

/-- Fixture: a level-10 monster at distance 5 from the origin in the
combat zone. -/
def baseMonster : Monster :=
  { id := "m1", name := "Stone Golem", level := 10, health := 250, maxHealth := 1000,
    positionX := 3, positionY := 0, positionZ := 4, zone := "selha_latna",
    difficultyMultiplier := 1, isAlive := true }

/-- Fixture world with one player and one in-range monster. -/
def exWorld : World := { players := [basePlayer], monsters := [baseMonster], cooldowns := [] }

/-- Fixture world whose player has too little aura for any ability. -/
def lowAuraWorld : World :=
  { players := [{ basePlayer with aura := 30 }], monsters := [], cooldowns := [] }

/-- Fixture: a level-99 player 200 experience short of the level-100
boundary. -/
def capPlayer : Player := { basePlayer with level := 99, experience := 9800 }

/-- Fixture world for the experience-cap boundary. -/
def capWorld : World := { players := [capPlayer], monsters := [], cooldowns := [] }

/-- Fixture world with a level-100 player, eligible for rebirth. -/
def rebirthWorld : World :=
  { players := [{ basePlayer with level := 100 }], monsters := [], cooldowns := [] }

/-- Fixture: a world-loot stack that expired at time 1000. -/
def expiredLootRow : WorldLootRow :=
  { id := "loot1", itemId := "item1", quantity := 2,
    positionX := 0, positionY := 0, positionZ := 0, zone := "selha_latna",
    droppedBy := some "p1", spawnedAt := 0, expiresAt := 1000 }

/-- Fixture loot store holding only the expired stack. -/
def expiredLootStore : LootStore :=
  { worldLoot := [expiredLootRow], inventory := [] }

/-- Fixture: a player whose aura exactly covers one stone_bullet cast, so
a successful cast drains it to zero. -/
def drainPlayer : Player := { basePlayer with aura := 50 }

/-- Fixture world for the aura-drain scenario. -/
def drainWorld : World := { players := [drainPlayer], monsters := [], cooldowns := [] }

theorem applyUpdates_id (p : Player) (u : PlayerUpdates) : (applyUpdates p u).id = p.id := rfl

theorem updatePlayer_monsters (w : World) (pid : String) (u : PlayerUpdates) :
    (updatePlayer w pid u).monsters = w.monsters := rfl

theorem updatePlayer_cooldowns (w : World) (pid : String) (u : PlayerUpdates) :
    (updatePlayer w pid u).cooldowns = w.cooldowns := rfl

theorem setCooldown_players (w : World) (now : Int) (pid s : String) (d : Int) :
    (setCooldown w now pid s d).players = w.players := rfl

theorem setCooldown_monsters (w : World) (now : Int) (pid s : String) (d : Int) :
    (setCooldown w now pid s d).monsters = w.monsters := rfl

theorem updateMonsterHealth_players (w : World) (mid : String) (h : Int) :
    (updateMonsterHealth w mid h).players = w.players := rfl

theorem updateMonsterHealth_cooldowns (w : World) (mid : String) (h : Int) :
    (updateMonsterHealth w mid h).cooldowns = w.cooldowns := rfl

theorem deleteMonster_players (w : World) (mid : String) :
    (deleteMonster w mid).players = w.players := rfl

theorem deleteMonster_cooldowns (w : World) (mid : String) :
    (deleteMonster w mid).cooldowns = w.cooldowns := rfl

theorem awardExperience_monsters (w : World) (p : Player) (e : Int) :
    (awardExperience w p e).monsters = w.monsters := rfl

theorem awardExperience_cooldowns (w : World) (p : Player) (e : Int) :
    (awardExperience w p e).cooldowns = w.cooldowns := rfl

theorem awardExperience_players (w : World) (p : Player) (e : Int) :
    (awardExperience w p e).players = (updatePlayer w p.id
      (let newExp := p.experience + e
       let newLevel := Int.fdiv newExp 100 + 1
       if newLevel > p.level ∧ newLevel ≤ 100 then
         { experience := some newExp
           level := some newLevel
           maxHealth := some (1000 + newLevel * 50)
           maxAura := some (500 + newLevel * 25)
           health := some (1000 + newLevel * 50)
           aura := some (500 + newLevel * 25) }
       else
         { experience := some newExp })).players := rfl

theorem getPlayer_mem {w : World} {pid : String} {p : Player}
    (hp : getPlayer w pid = some p) : p ∈ w.players :=
  List.mem_of_find?_eq_some hp

theorem getPlayer_id {w : World} {pid : String} {p : Player}
    (hp : getPlayer w pid = some p) : p.id = pid := by
  have h := List.find?_some (p := fun q : Player => q.id == pid) hp
  exact eq_of_beq h

theorem find?_map_update {l : List Player} {pid : String} {p : Player} (u : PlayerUpdates)
    (hp : l.find? (fun q => q.id == pid) = some p) :
    (l.map (fun q => if q.id == pid then applyUpdates q u else q)).find?
      (fun q => q.id == pid) = some (applyUpdates p u) := by
  induction l with
  | nil => simp at hp
  | cons a t ih =>
    by_cases h : (a.id == pid) = true
    · rw [List.find?_cons_of_pos (p := fun q : Player => q.id == pid) t h] at hp
      injection hp with hp2
      subst hp2
      rw [List.map_cons, if_pos h]
      exact List.find?_cons_of_pos (p := fun q : Player => q.id == pid) _ h
    · rw [List.find?_cons_of_neg (p := fun q : Player => q.id == pid) t h] at hp
      rw [List.map_cons, if_neg h]
      rw [List.find?_cons_of_neg (p := fun q : Player => q.id == pid) _ h]
      exact ih hp

theorem getPlayer_updatePlayer {w : World} {pid : String} {p : Player} (u : PlayerUpdates)
    (hp : getPlayer w pid = some p) :
    getPlayer (updatePlayer w pid u) pid = some (applyUpdates p u) :=
  find?_map_update u hp

theorem updatePlayer_ids (w : World) (pid : String) (u : PlayerUpdates) :
    (updatePlayer w pid u).players.map Player.id = w.players.map Player.id := by
  show (List.map (fun q => if (q.id == pid) = true then applyUpdates q u else q)
    w.players).map Player.id = w.players.map Player.id
  rw [List.map_map]
  refine List.map_congr_left ?_
  intro a _
  by_cases h : (a.id == pid) = true <;> simp [Function.comp, h, applyUpdates_id]

theorem abilitiesGet_cost_cooldown {k : String} {a : AbilityDefinition}
    (h : abilitiesGet k = some a) : 0 ≤ a.auraCost ∧ 0 < a.cooldown := by
  unfold abilitiesGet at h
  split at h
  · injection h with h2; subst h2; decide
  · split at h
    · injection h with h2; subst h2; decide
    · split at h
      · injection h with h2; subst h2; decide
      · split at h
        · injection h with h2; subst h2; decide
        · exact Option.noConfusion h

theorem alistGet_alistSet_self {α : Type} (m : List (String × α)) (k : String) (v : α) :
    alistGet (alistSet m k v) k = some v := by
  induction m with
  | nil =>
    show alistGet [(k, v)] k = some v
    unfold alistGet
    rw [List.find?_cons_of_pos (p := fun x : String × α => x.1 == k) _ (by simp)]
    rfl
  | cons e t ih =>
    show alistGet (if (e.1 == k) = true then (k, v) :: t else e :: alistSet t k v) k = some v
    by_cases h : (e.1 == k) = true
    · rw [if_pos h]
      unfold alistGet
      rw [List.find?_cons_of_pos (p := fun x : String × α => x.1 == k) _ (by simp)]
      rfl
    · rw [if_neg h]
      unfold alistGet
      rw [List.find?_cons_of_neg (p := fun x : String × α => x.1 == k) _ h]
      exact ih

theorem mem_updatePlayer_bounds {w : World} {pid : String} {p : Player} {u : PlayerUpdates}
    (hnd : (w.players.map Player.id).Nodup)
    (hall : ∀ q ∈ w.players, playerBounds q)
    (hp : getPlayer w pid = some p)
    (hu : playerBounds (applyUpdates p u)) :
    ∀ q ∈ (updatePlayer w pid u).players, playerBounds q := by
  intro q hq
  rcases List.mem_map.1 hq with ⟨q0, hq0, rfl⟩
  by_cases h : (q0.id == pid) = true
  · have hq0p : q0 = p := by
      refine List.inj_on_of_nodup_map hnd hq0 (getPlayer_mem hp) ?_
      rw [eq_of_beq h, getPlayer_id hp]
    subst hq0p
    rw [if_pos h]
    exact hu
  · rw [if_neg h]
    exact hall q0 hq0

theorem playerBounds_regen {p : Player} (hb : playerBounds p) :
    playerBounds (regenTickPlayer p) := by
  obtain ⟨h1, h2, h3, h4⟩ := hb
  have hmh : (0 : Int) ≤ p.maxHealth := le_trans h1 h2
  have hma : (0 : Int) ≤ p.maxAura := le_trans h3 h4
  have hfh : (0 : Int) ≤ Int.floor ((p.maxHealth : Rat) * (1 / 100)) := by
    refine Int.floor_nonneg.2 (mul_nonneg ?_ (by norm_num))
    exact_mod_cast hmh
  have hfa : (0 : Int) ≤ Int.floor ((p.maxAura : Rat) * (2 / 100)) := by
    refine Int.floor_nonneg.2 (mul_nonneg ?_ (by norm_num))
    exact_mod_cast hma
  have hrh1 : 0 ≤ regenHealth p := by
    unfold regenHealth
    exact le_min hmh (by linarith)
  have hrh2 : regenHealth p ≤ p.maxHealth := by
    unfold regenHealth
    exact min_le_left _ _
  have hra1 : 0 ≤ regenAura p := by
    unfold regenAura
    exact le_min hma (by linarith)
  have hra2 : regenAura p ≤ p.maxAura := by
    unfold regenAura
    exact min_le_left _ _
  by_cases hc : regenHealth p ≠ p.health ∨ regenAura p ≠ p.aura
  · have he : regenTickPlayer p =
        applyUpdates p { health := some (regenHealth p), aura := some (regenAura p) } := by
      unfold regenTickPlayer regenUpdates
      rw [if_pos hc]
    rw [he]
    exact ⟨hrh1, hrh2, hra1, hra2⟩
  · have he : regenTickPlayer p = p := by
      unfold regenTickPlayer regenUpdates
      rw [if_neg hc]
    rw [he]
    exact ⟨h1, h2, h3, h4⟩

/-- C2: when the player exists, the ability name resolves and the level
requirement is met but the aura is below the cost, useAbility returns
success = false with a message containing "enough aura" and leaves the
whole engine state unchanged: no player field is touched, no storage
update is issued and no cooldown is armed. -/
theorem C2_insufficient_aura {w : World} {now : Int} {pid s : String} {tgt : Option String}
    {player : Player} {a : AbilityDefinition}
    (hp : getPlayer w pid = some player)
    (ha : resolveAbility s = some a)
    (hlv : ¬ player.level < a.requiredLevel)
    (hau : player.aura < a.auraCost) :
    (useAbility w now pid s tgt).1.success = false ∧
    (useAbility w now pid s tgt).1.message = "Not enough aura" ∧
    strContains (useAbility w now pid s tgt).1.message "enough aura" = true ∧
    (useAbility w now pid s tgt).2 = w := by
  have he : useAbility w now pid s tgt =
      ({ success := false, damage := none, abilityUsed := s, playerId := pid,
         targetId := none, message := "Not enough aura", auraCost := a.auraCost }, w) := by
    simp only [useAbility, hp, ha, if_neg hlv, if_pos hau]
  rw [he]
  refine ⟨rfl, rfl, ?_, rfl⟩
  show strContains "Not enough aura" "enough aura" = true
  decide

/-- C2 witness: the fixture player with 30 aura cannot pay the 50 aura of
stone_bullet and the call leaves the world untouched. -/
theorem C2_witness :
    ({ basePlayer with aura := 30 } : Player).aura < stoneBullet.auraCost ∧
    (useAbility lowAuraWorld 0 "p1" "stone_bullet" none).1.success = false ∧
    (useAbility lowAuraWorld 0 "p1" "stone_bullet" none).2 = lowAuraWorld := by
  have h := @C2_insufficient_aura lowAuraWorld 0 "p1" "stone_bullet" none
    { basePlayer with aura := 30 } stoneBullet rfl rfl (by decide) (by decide)
  exact ⟨by decide, h.1, h.2.2.2⟩

/-- C7: collecting a world-loot id whose expiry has passed returns false
and mutates nothing: the select filters on expiresAt > now, so the row is
not found, no inventory row changes and no world-loot row is deleted. -/
theorem C7_expired_loot {st : LootStore} {now : Int} {freshId pid lootId : String}
    (hexp : ∀ l ∈ st.worldLoot, l.id = lootId → l.expiresAt ≤ now) :
    collectWorldLoot st now freshId pid lootId = (false, st) := by
  have hnone : st.worldLoot.find? (fun l => l.id == lootId && decide (now < l.expiresAt)) =
      none := by
    rw [List.find?_eq_none]
    intro l hl hcontra
    rcases Bool.and_eq_true_iff.1 hcontra with ⟨h1, h2⟩
    have hle := hexp l hl (eq_of_beq h1)
    have hlt := of_decide_eq_true h2
    exact absurd hle (not_le.2 hlt)
  unfold collectWorldLoot
  rw [hnone]

/-- C7 witness: the fixture stack expired at time 1000 and collection at
time 2000 is a mutation-free failure. -/
theorem C7_witness :
    expiredLootRow.expiresAt ≤ 2000 ∧
    collectWorldLoot expiredLootStore 2000 "fresh1" "p1" "loot1" = (false, expiredLootStore) := by
  refine ⟨by decide, C7_expired_loot ?_⟩
  intro l hl _
  have hl2 : l = expiredLootRow := by simpa [expiredLootStore] using hl
  subst hl2
  decide

/-- C9 counterexample: the claim says each of the four catalog display
names resolves like its wire identifier, but "Ground Dig-Up" normalizes to
"ground_dig-up" (the hyphen survives and only the first space would have
been replaced), which is not the key "ground_dig_up", so the display name
resolves to nothing while the wire identifier resolves to the ability. -/
theorem C9_counterexample :
    resolveAbility "Ground Dig-Up" = none ∧
    resolveAbility "ground_dig_up" = some groundDigUp ∧
    normalizeAbilityName "Ground Dig-Up" = "ground_dig-up" := by
  refine ⟨by decide, by decide, by decide⟩

/-- C9 amended: resolution lowercases the name and replaces only the first
space with an underscore; display name and wire identifier resolve to the
same definition for Stone Bullet, Wind Manipulation and Aura Release, but
the display name "Ground Dig-Up" resolves to nothing because its hyphen is
not normalized; and any two names equal after normalization resolve to the
same result. -/
theorem C9_amended :
    resolveAbility "Stone Bullet" = some stoneBullet ∧
    resolveAbility "stone_bullet" = some stoneBullet ∧
    resolveAbility "Wind Manipulation" = some windManipulation ∧
    resolveAbility "wind_manipulation" = some windManipulation ∧
    resolveAbility "Aura Release" = some auraRelease ∧
    resolveAbility "aura_release" = some auraRelease ∧
    resolveAbility "Ground Dig-Up" = none ∧
    resolveAbility "ground_dig_up" = some groundDigUp ∧
    ∀ s1 s2 : String, normalizeAbilityName s1 = normalizeAbilityName s2 →
      resolveAbility s1 = resolveAbility s2 := by
  refine ⟨by decide, by decide, by decide, by decide, by decide, by decide, by decide, by decide,
    ?_⟩
  intro s1 s2 h
  unfold resolveAbility
  rw [h]

/-- C9 witness: two further spellings with the same normal form resolve
identically. -/
theorem C9_witness :
    resolveAbility "STONE BULLET" = resolveAbility "stone bullet" :=
  C9_amended.2.2.2.2.2.2.2.2 "STONE BULLET" "stone bullet" (by decide)

/-- C3 counterexample: a level-99 player at 9800 experience awarded 300
experience has computed level floor(10100 / 100) + 1 = 102; the claim says
the level is capped at 100, but the source skips the level update entirely
when the computed level exceeds 100, so the player stays at level 99. -/
theorem C3_counterexample :
    (getPlayer (awardExperience capWorld capPlayer 300) "p1").map Player.level = some 99 ∧
    min (Int.fdiv (9800 + 300) 100 + 1) 100 = 100 := by
  refine ⟨by decide, by decide⟩

/-- C3 amended: awardExperience always sets experience to the raised
value; the level becomes floor(newExperience / 100) + 1 exactly when that
value both exceeds the current level and is at most 100 (a computed level
above 100 leaves the level unchanged rather than clamping it to 100), and
on such a level increase maxHealth becomes 1000 + level * 50, maxAura
becomes 500 + level * 25, and health and aura are fully restored to the
new maxima; otherwise level, health, aura and the maxima are untouched. -/
theorem C3_award_level {w : World} {player : Player} (exp : Int)
    (hp : getPlayer w player.id = some player) :
    ∃ p2, getPlayer (awardExperience w player exp) player.id = some p2 ∧
      p2.experience = player.experience + exp ∧
      ((Int.fdiv (player.experience + exp) 100 + 1 > player.level ∧
        Int.fdiv (player.experience + exp) 100 + 1 ≤ 100) →
        (p2.level = Int.fdiv (player.experience + exp) 100 + 1 ∧
         p2.maxHealth = 1000 + p2.level * 50 ∧
         p2.maxAura = 500 + p2.level * 25 ∧
         p2.health = p2.maxHealth ∧ p2.aura = p2.maxAura)) ∧
      (¬ (Int.fdiv (player.experience + exp) 100 + 1 > player.level ∧
          Int.fdiv (player.experience + exp) 100 + 1 ≤ 100) →
        (p2.level = player.level ∧ p2.health = player.health ∧
         p2.maxHealth = player.maxHealth ∧ p2.aura = player.aura ∧
         p2.maxAura = player.maxAura)) := by
  by_cases hc : (Int.fdiv (player.experience + exp) 100 + 1 > player.level ∧
      Int.fdiv (player.experience + exp) 100 + 1 ≤ 100)
  · have he : awardExperience w player exp = updatePlayer w player.id
        { experience := some (player.experience + exp)
          level := some (Int.fdiv (player.experience + exp) 100 + 1)
          maxHealth := some (1000 + (Int.fdiv (player.experience + exp) 100 + 1) * 50)
          maxAura := some (500 + (Int.fdiv (player.experience + exp) 100 + 1) * 25)
          health := some (1000 + (Int.fdiv (player.experience + exp) 100 + 1) * 50)
          aura := some (500 + (Int.fdiv (player.experience + exp) 100 + 1) * 25) } := by
      simp only [awardExperience, if_pos hc]
    rw [he]
    exact ⟨_, getPlayer_updatePlayer _ hp, rfl,
      fun _ => ⟨rfl, rfl, rfl, rfl, rfl⟩, fun hnc => absurd hc hnc⟩
  · have he : awardExperience w player exp = updatePlayer w player.id
        { experience := some (player.experience + exp) } := by
      simp only [awardExperience, if_neg hc]
    rw [he]
    exact ⟨_, getPlayer_updatePlayer _ hp, rfl,
      fun hc2 => absurd hc2 hc, fun _ => ⟨rfl, rfl, rfl, rfl, rfl⟩⟩

/-- C3 witness: on the fixture level-99 player the computed level 102
exceeds 100, so the non-level-up branch of the amended claim applies and
the level stays 99 while the experience still rises to 10100. -/
theorem C3_witness :
    (getPlayer (awardExperience capWorld capPlayer 300) capPlayer.id).map Player.level =
      some 99 ∧
    (getPlayer (awardExperience capWorld capPlayer 300) capPlayer.id).map Player.experience =
      some 10100 := by
  obtain ⟨p2, h1, h2, _, h4⟩ := @C3_award_level capWorld capPlayer 300 rfl
  have h5 := h4 (by decide)
  rw [h1, Option.map_some', Option.map_some', h5.1, h2]
  exact ⟨by decide, by decide⟩

/-- C6: the rebirth endpoint rejects any existing player below level 100
without changing state; at level 100 or above it resets level to 1,
experience to 0, health and maxHealth to 1000, aura and maxAura to 500,
increments the rebirth cycle, and adds floor(oldLevel * 10) to each of the
four hidden stats. -/
theorem C6_rebirth {w : World} {pid : String} {player : Player}
    (hp : getPlayer w pid = some player) :
    (player.level < 100 → rebirthRoute w pid = (RebirthResponse.levelTooLow, w)) ∧
    (¬ player.level < 100 →
      ∃ p2 w2, rebirthRoute w pid = (RebirthResponse.ok p2, w2) ∧
        getPlayer w2 pid = some p2 ∧
        p2.level = 1 ∧ p2.experience = 0 ∧
        p2.rebirthCycle = player.rebirthCycle + 1 ∧
        p2.health = 1000 ∧ p2.maxHealth = 1000 ∧
        p2.aura = 500 ∧ p2.maxAura = 500 ∧
        p2.hiddenStrength = player.hiddenStrength + Int.floor ((player.level : Rat) * 10) ∧
        p2.hiddenAgility = player.hiddenAgility + Int.floor ((player.level : Rat) * 10) ∧
        p2.hiddenIntelligence =
          player.hiddenIntelligence + Int.floor ((player.level : Rat) * 10) ∧
        p2.hiddenEndurance = player.hiddenEndurance + Int.floor ((player.level : Rat) * 10)) := by
  have hid : player.id = pid := getPlayer_id hp
  constructor
  · intro hlt
    simp only [rebirthRoute, hp, if_pos hlt]
  · intro h
    have hpr : getPlayer w player.id = some player := by rw [hid]; exact hp
    have he : rebirthRoute w pid =
        (RebirthResponse.ok (applyUpdates player
          { level := some 1
            experience := some 0
            rebirthCycle := some (player.rebirthCycle + 1)
            health := some 1000
            maxHealth := some 1000
            aura := some 500
            maxAura := some 500
            hiddenStrength := some (player.hiddenStrength + Int.floor ((player.level : Rat) * 10))
            hiddenAgility := some (player.hiddenAgility + Int.floor ((player.level : Rat) * 10))
            hiddenIntelligence :=
              some (player.hiddenIntelligence + Int.floor ((player.level : Rat) * 10))
            hiddenEndurance :=
              some (player.hiddenEndurance + Int.floor ((player.level : Rat) * 10)) }),
         updatePlayer w player.id
          { level := some 1
            experience := some 0
            rebirthCycle := some (player.rebirthCycle + 1)
            health := some 1000
            maxHealth := some 1000
            aura := some 500
            maxAura := some 500
            hiddenStrength := some (player.hiddenStrength + Int.floor ((player.level : Rat) * 10))
            hiddenAgility := some (player.hiddenAgility + Int.floor ((player.level : Rat) * 10))
            hiddenIntelligence :=
              some (player.hiddenIntelligence + Int.floor ((player.level : Rat) * 10))
            hiddenEndurance :=
              some (player.hiddenEndurance + Int.floor ((player.level : Rat) * 10)) }) := by
      simp only [rebirthRoute, hp, if_neg h, performRebirth, hpr]
    refine ⟨_, _, he, ?_, rfl, rfl, rfl, rfl, rfl, rfl, rfl, rfl, rfl, rfl, rfl⟩
    rw [← hid]
    exact getPlayer_updatePlayer _ hpr

/-- C6 witness: the fixture level-60 player is rejected with the world
unchanged. -/
theorem C6_witness :
    basePlayer.level < 100 ∧
    rebirthRoute exWorld "p1" = (RebirthResponse.levelTooLow, exWorld) :=
  ⟨by decide, (@C6_rebirth exWorld "p1" basePlayer rfl).1 (by decide)⟩

/-- C8: one Regenerator tick for one online player raises health by
floor(maxHealth * 0.01) and aura by floor(maxAura * 0.02), each capped at
its maximum; a storage update is issued exactly when one of the two capped
values differs from the current value (in particular never when both pools
are already full, given nonnegative maxima), the issued update carries
exactly the health and aura columns, and no other player field changes. -/
theorem C8_regen_tick (p : Player) :
    (regenTickPlayer p).health = regenHealth p ∧
    (regenTickPlayer p).aura = regenAura p ∧
    regenHealth p = min p.maxHealth (p.health + Int.floor ((p.maxHealth : Rat) * (1 / 100))) ∧
    regenAura p = min p.maxAura (p.aura + Int.floor ((p.maxAura : Rat) * (2 / 100))) ∧
    ((regenUpdates p).isSome = true ↔ (regenHealth p ≠ p.health ∨ regenAura p ≠ p.aura)) ∧
    (∀ u, regenUpdates p = some u →
      u = { health := some (regenHealth p), aura := some (regenAura p) }) ∧
    (0 ≤ p.maxHealth → 0 ≤ p.maxAura → p.health = p.maxHealth → p.aura = p.maxAura →
      regenUpdates p = none) ∧
    (regenTickPlayer p).id = p.id ∧
    (regenTickPlayer p).level = p.level ∧
    (regenTickPlayer p).experience = p.experience ∧
    (regenTickPlayer p).rebirthCycle = p.rebirthCycle ∧
    (regenTickPlayer p).maxHealth = p.maxHealth ∧
    (regenTickPlayer p).maxAura = p.maxAura ∧
    (regenTickPlayer p).hiddenStrength = p.hiddenStrength ∧
    (regenTickPlayer p).hiddenAgility = p.hiddenAgility ∧
    (regenTickPlayer p).hiddenIntelligence = p.hiddenIntelligence ∧
    (regenTickPlayer p).hiddenEndurance = p.hiddenEndurance ∧
    (regenTickPlayer p).positionX = p.positionX ∧
    (regenTickPlayer p).positionY = p.positionY ∧
    (regenTickPlayer p).positionZ = p.positionZ ∧
    (regenTickPlayer p).isOnline = p.isOnline := by
  have hcap : 0 ≤ p.maxHealth → 0 ≤ p.maxAura → p.health = p.maxHealth → p.aura = p.maxAura →
      regenUpdates p = none := by
    intro h1 h2 h3 h4
    have hf : (0 : Int) ≤ Int.floor ((p.maxHealth : Rat) * (1 / 100)) := by
      refine Int.floor_nonneg.2 (mul_nonneg ?_ (by norm_num))
      exact_mod_cast h1
    have hfa : (0 : Int) ≤ Int.floor ((p.maxAura : Rat) * (2 / 100)) := by
      refine Int.floor_nonneg.2 (mul_nonneg ?_ (by norm_num))
      exact_mod_cast h2
    have e1 : regenHealth p = p.health := by
      unfold regenHealth
      rw [h3]
      exact min_eq_left (by linarith)
    have e2 : regenAura p = p.aura := by
      unfold regenAura
      rw [h4]
      exact min_eq_left (by linarith)
    unfold regenUpdates
    rw [if_neg]
    push_neg
    exact ⟨e1, e2⟩
  by_cases hc : regenHealth p ≠ p.health ∨ regenAura p ≠ p.aura
  · have hu : regenUpdates p =
        some { health := some (regenHealth p), aura := some (regenAura p) } := by
      unfold regenUpdates
      rw [if_pos hc]
    have ht : regenTickPlayer p =
        applyUpdates p { health := some (regenHealth p), aura := some (regenAura p) } := by
      unfold regenTickPlayer
      rw [hu]
    refine ⟨by rw [ht]; rfl, by rw [ht]; rfl, rfl, rfl, ?_, ?_, hcap,
      by rw [ht]; rfl, by rw [ht]; rfl, by rw [ht]; rfl, by rw [ht]; rfl, by rw [ht]; rfl, by rw [ht]; rfl, by rw [ht]; rfl,
      by rw [ht]; rfl, by rw [ht]; rfl, by rw [ht]; rfl, by rw [ht]; rfl, by rw [ht]; rfl, by rw [ht]; rfl, by rw [ht]; rfl⟩
    · rw [hu]
      exact ⟨fun _ => hc, fun _ => rfl⟩
    · intro u hu2
      rw [hu] at hu2
      injection hu2 with hu3
      exact hu3.symm
  · have hu : regenUpdates p = none := by
      unfold regenUpdates
      rw [if_neg hc]
    have ht : regenTickPlayer p = p := by
      unfold regenTickPlayer
      rw [hu]
    push_neg at hc
    refine ⟨by rw [ht, hc.1], by rw [ht, hc.2], rfl, rfl, ?_, ?_, hcap,
      by rw [ht], by rw [ht], by rw [ht], by rw [ht], by rw [ht], by rw [ht], by rw [ht],
      by rw [ht], by rw [ht], by rw [ht], by rw [ht], by rw [ht], by rw [ht], by rw [ht]⟩
    · rw [hu]
      constructor
      · intro hfalse
        exact absurd hfalse (by decide)
      · intro hor
        rcases hor with h | h
        · exact absurd hc.1 h
        · exact absurd hc.2 h
    · intro u hu2
      rw [hu] at hu2
      exact Option.noConfusion hu2

/-- C8 witness: a player missing 100 health regenerates 10 health and no
aura, and the two both-at-maximum implications are exercised. -/
theorem C8_witness :
    (regenTickPlayer { basePlayer with health := 900 }).health = 910 ∧
    regenUpdates basePlayer = none := by
  have h1 := C8_regen_tick { basePlayer with health := 900 }
  have h2 := C8_regen_tick basePlayer
  constructor
  · rw [h1.1]
    show min (1000 : Int) (900 + Int.floor ((1000 : Int) * (1 / 100) : Rat)) = 910
    with_unfolding_all rfl
  · exact h2.2.2.2.2.2.2.1 (by decide) (by decide) (by decide) (by decide)

/-- C1: in a well-formed database (primary-key ids, the data-model bounds,
nonnegative experience, rebirth cycles and monster levels), every
useAbility call, including the awardExperience level-up path on a kill,
keeps 0 <= health <= maxHealth and 0 <= aura <= maxAura for every player,
and so does a Regenerator tick for any player satisfying the bounds. -/
theorem C1_bounds {w : World} (t : Int) (pid s : String) (tgt : Option String)
    (hWF : wellFormed w) :
    (∀ q ∈ (useAbility w t pid s tgt).2.players, playerBounds q) ∧
    (∀ p : Player, playerBounds p → playerBounds (regenTickPlayer p)) := by
  obtain ⟨hnd, hpl, hml⟩ := hWF
  refine ⟨?_, fun p hb => playerBounds_regen hb⟩
  cases hgp : getPlayer w pid with
  | none =>
    simp only [useAbility, hgp]
    exact fun q hq => (hpl q hq).1
  | some player =>
    cases hra : resolveAbility s with
    | none =>
      simp only [useAbility, hgp, hra]
      exact fun q hq => (hpl q hq).1
    | some a =>
      by_cases hlv : player.level < a.requiredLevel
      · simp only [useAbility, hgp, hra, if_pos hlv]
        exact fun q hq => (hpl q hq).1
      · by_cases hau : player.aura < a.auraCost
        · simp only [useAbility, hgp, hra, if_neg hlv, if_pos hau]
          exact fun q hq => (hpl q hq).1
        · by_cases hcd : (isOnCooldown w t pid s = true)
          · simp only [useAbility, hgp, hra, if_neg hlv, if_neg hau, if_pos hcd]
            exact fun q hq => (hpl q hq).1
          · have hcost : 0 ≤ a.auraCost := (abilitiesGet_cost_cooldown hra).1
            obtain ⟨⟨b1, b2, b3, b4⟩, hexp0, hrc0⟩ := hpl player (getPlayer_mem hgp)
            have hu1 : playerBounds (applyUpdates player
                { aura := some (player.aura - a.auraCost) }) := by
              refine ⟨b1, b2, ?_, ?_⟩
              · show (0 : Int) ≤ player.aura - a.auraCost
                have := not_lt.1 hau
                linarith
              · show player.aura - a.auraCost ≤ player.maxAura
                linarith
            have h1all : ∀ q ∈ (updatePlayer w pid
                { aura := some (player.aura - a.auraCost) }).players, playerBounds q :=
              mem_updatePlayer_bounds hnd (fun q hq => (hpl q hq).1) hgp hu1
            have hnd1 : ((updatePlayer w pid
                { aura := some (player.aura - a.auraCost) }).players.map Player.id).Nodup := by
              rw [updatePlayer_ids]
              exact hnd
            have hgp1 : getPlayer (updatePlayer w pid
                  { aura := some (player.aura - a.auraCost) }) pid =
                some (applyUpdates player { aura := some (player.aura - a.auraCost) }) :=
              getPlayer_updatePlayer _ hgp
            simp only [useAbility, hgp, hra, if_neg hlv, if_neg hau, if_neg hcd]
            split
            · exact h1all
            · split
              · exact h1all
              · rename_i tid monster hfm
                split
                · -- kill path: the monster update and soft delete keep the
                  -- player table, then awardExperience updates the player
                  have hmm : monster ∈ w.monsters := by
                    have h1 := List.mem_of_find?_eq_some hfm
                    exact List.mem_of_mem_filter h1
                  have hml0 : 0 ≤ monster.level := hml monster hmm
                  have hgain : 0 ≤ Int.floor ((monster.level * 10 : Rat) *
                      (1 + (player.rebirthCycle : Rat) * (1 / 10))) := by
                    refine Int.floor_nonneg.2 (mul_nonneg (mul_nonneg ?_ (by norm_num)) ?_)
                    · exact_mod_cast hml0
                    · refine add_nonneg zero_le_one (mul_nonneg ?_ (by norm_num))
                      exact_mod_cast hrc0
                  set expGain := Int.floor ((monster.level * 10 : Rat) *
                      (1 + (player.rebirthCycle : Rat) * (1 / 10))) with hEG
                  have hnewExp : 0 ≤ player.experience + expGain := add_nonneg hexp0 hgain
                  have hNL : 1 ≤ Int.fdiv (player.experience + expGain) 100 + 1 := by
                    have := Int.fdiv_nonneg hnewExp (by norm_num : (0 : Int) ≤ 100)
                    linarith
                  have hid : player.id = pid := getPlayer_id hgp
                  -- characterize the awardExperience update
                  by_cases hlvup : (Int.fdiv (player.experience + expGain) 100 + 1 >
                      player.level ∧ Int.fdiv (player.experience + expGain) 100 + 1 ≤ 100)
                  · have hu2 : playerBounds (applyUpdates
                        (applyUpdates player { aura := some (player.aura - a.auraCost) })
                        { experience := some (player.experience + expGain)
                          level := some (Int.fdiv (player.experience + expGain) 100 + 1)
                          maxHealth := some (1000 +
                            (Int.fdiv (player.experience + expGain) 100 + 1) * 50)
                          maxAura := some (500 +
                            (Int.fdiv (player.experience + expGain) 100 + 1) * 25)
                          health := some (1000 +
                            (Int.fdiv (player.experience + expGain) 100 + 1) * 50)
                          aura := some (500 +
                            (Int.fdiv (player.experience + expGain) 100 + 1) * 25) }) := by
                      refine ⟨?_, le_refl _, ?_, le_refl _⟩
                      · show (0 : Int) ≤ 1000 + (Int.fdiv (player.experience + expGain) 100 + 1) * 50
                        nlinarith
                      · show (0 : Int) ≤ 500 + (Int.fdiv (player.experience + expGain) 100 + 1) * 25
                        nlinarith
                    simp only [awardExperience, if_pos hlvup]
                    refine mem_updatePlayer_bounds ?_ ?_ ?_ hu2
                    · show ((updatePlayer w pid
                        { aura := some (player.aura - a.auraCost) }).players.map Player.id).Nodup
                      exact hnd1
                    · exact h1all
                    · show getPlayer (updatePlayer w pid
                          { aura := some (player.aura - a.auraCost) }) player.id = _
                      rw [hid]
                      exact hgp1
                  · have hu2 : playerBounds (applyUpdates
                        (applyUpdates player { aura := some (player.aura - a.auraCost) })
                        { experience := some (player.experience + expGain) }) := by
                      exact ⟨hu1.1, hu1.2.1, hu1.2.2.1, hu1.2.2.2⟩
                    simp only [awardExperience, if_neg hlvup]
                    refine mem_updatePlayer_bounds ?_ ?_ ?_ hu2
                    · show ((updatePlayer w pid
                        { aura := some (player.aura - a.auraCost) }).players.map Player.id).Nodup
                      exact hnd1
                    · exact h1all
                    · show getPlayer (updatePlayer w pid
                          { aura := some (player.aura - a.auraCost) }) player.id = _
                      rw [hid]
                      exact hgp1
                · exact h1all

/-- C1 witness: the fixture world is well-formed, a concrete ability use
keeps the bounds for the resulting player row, and the Regenerator tick
keeps them for the fixture player. -/
theorem C1_witness :
    wellFormed exWorld ∧
    playerBounds ((useAbility exWorld 1000 "p1" "stone_bullet" none).2.players.getD 0
      basePlayer) ∧
    playerBounds (regenTickPlayer basePlayer) := by
  have h := @C1_bounds exWorld 1000 "p1" "stone_bullet" none (by decide)
  exact ⟨by decide, h.1 _ (by decide), h.2 basePlayer (by decide)⟩

theorem useAbility_fails_on_cooldown {w2 : World} {t2 : Int} {pid s : String}
    {tgt2 : Option String} {a : AbilityDefinition}
    (ha : resolveAbility s = some a)
    (hcd2 : isOnCooldown w2 t2 pid s = true) :
    (useAbility w2 t2 pid s tgt2).1.success = false ∧
    (∀ p2, getPlayer w2 pid = some p2 →
      ¬ p2.level < a.requiredLevel → ¬ p2.aura < a.auraCost →
      (useAbility w2 t2 pid s tgt2).1.message =
        "Ability on cooldown (" ++ toString (getRemainingCooldown w2 t2 pid s) ++
          "ms remaining)") := by
  cases hgp2 : getPlayer w2 pid with
  | none =>
    constructor
    · simp only [useAbility, hgp2]
    · intro p2 h _ _
      exact Option.noConfusion h
  | some p2 =>
    by_cases hl2 : p2.level < a.requiredLevel
    · constructor
      · simp only [useAbility, hgp2, ha, if_pos hl2]
      · intro p2b h hl _
        injection h with h
        subst h
        exact absurd hl2 hl
    · by_cases ha2 : p2.aura < a.auraCost
      · constructor
        · simp only [useAbility, hgp2, ha, if_neg hl2, if_pos ha2]
        · intro p2b h _ hau2
          injection h with h
          subst h
          exact absurd ha2 hau2
      · constructor
        · simp only [useAbility, hgp2, ha, if_neg hl2, if_neg ha2, if_pos hcd2]
        · intro p2b _ _ _
          simp only [useAbility, hgp2, ha, if_neg hl2, if_neg ha2, if_pos hcd2]

/-- C5 counterexample, two scenarios against the claim "the second call
returns success = false with an on-cooldown message".  First: cooldowns
are keyed by the raw ability-name string, not the normalized one, so a
successful "stone_bullet" cast at time 1000 followed 1 ms later by a
"Stone Bullet" cast by the same player (the same resolved ability, well
inside the 2000 ms cooldown) succeeds as well: both back-to-back attempts
succeed.  Second: the aura check runs before the cooldown check, so when
the first cast drained the aura below the cost, the second same-string
call inside the window fails with "Not enough aura", not with the
on-cooldown message. -/
theorem C5_counterexample :
    ((useAbility exWorld 1000 "p1" "stone_bullet" none).1.success = true ∧
     (useAbility (useAbility exWorld 1000 "p1" "stone_bullet" none).2
       1001 "p1" "Stone Bullet" none).1.success = true ∧
     normalizeAbilityName "Stone Bullet" = normalizeAbilityName "stone_bullet" ∧
     ((1001 : Int) - 1000 < stoneBullet.cooldown)) ∧
    ((useAbility drainWorld 1000 "p1" "stone_bullet" none).1.success = true ∧
     (useAbility (useAbility drainWorld 1000 "p1" "stone_bullet" none).2
       1001 "p1" "stone_bullet" none).1.success = false ∧
     (useAbility (useAbility drainWorld 1000 "p1" "stone_bullet" none).2
       1001 "p1" "stone_bullet" none).1.message = "Not enough aura" ∧
     strContains (useAbility (useAbility drainWorld 1000 "p1" "stone_bullet" none).2
       1001 "p1" "stone_bullet" none).1.message "cooldown" = false) := by
  refine ⟨⟨by decide, by decide, by decide, by decide⟩,
    by decide, by decide, by decide, by decide⟩

/-- C5 amended: if a useAbility call with a given ability-name string
succeeds at time t, then a second call by the same player with the same
name string at any time t2 earlier than t plus the cooldown returns
success = false, so at most one of the two attempts succeeds; the failure
message is the on-cooldown one, carrying the remaining duration, whenever
the stored player still passes the level and aura checks (when the first
cast drained the aura below the cost, the message is "Not enough aura"
instead); a second call spelled differently but resolving to the same
ability (display name against wire identifier) is not blocked, because the
cooldown map is keyed by the raw un-normalized string. -/
theorem C5_cooldown_same_name {w : World} {t t2 : Int} {pid s : String}
    {tgt tgt2 : Option String} {player : Player} {a : AbilityDefinition}
    (hp : getPlayer w pid = some player)
    (ha : resolveAbility s = some a)
    (hlv : ¬ player.level < a.requiredLevel)
    (hau : ¬ player.aura < a.auraCost)
    (hcd : ¬ (isOnCooldown w t pid s = true))
    (ht : 0 ≤ t)
    (ht2 : t2 < t + a.cooldown) :
    (useAbility w t pid s tgt).1.success = true ∧
    (useAbility (useAbility w t pid s tgt).2 t2 pid s tgt2).1.success = false ∧
    (∀ p2, getPlayer (useAbility w t pid s tgt).2 pid = some p2 →
      ¬ p2.level < a.requiredLevel → ¬ p2.aura < a.auraCost →
      (useAbility (useAbility w t pid s tgt).2 t2 pid s tgt2).1.message =
        "Ability on cooldown (" ++
          toString (getRemainingCooldown (useAbility w t pid s tgt).2 t2 pid s) ++
          "ms remaining)") := by
  have hpos : 0 < a.cooldown := (abilitiesGet_cost_cooldown ha).2
  have hsucc : (useAbility w t pid s tgt).1.success = true := by
    simp only [useAbility, hp, ha, if_neg hlv, if_neg hau, if_neg hcd]
  have hcool : (useAbility w t pid s tgt).2.cooldowns =
      alistSet w.cooldowns pid
        (alistSet ((alistGet w.cooldowns pid).getD []) s (t + a.cooldown)) := by
    simp only [useAbility, hp, ha, if_neg hlv, if_neg hau, if_neg hcd]
    split
    · rfl
    · split
      · rfl
      · split
        · rfl
        · rfl
  have hcd2 : isOnCooldown (useAbility w t pid s tgt).2 t2 pid s = true := by
    unfold isOnCooldown
    rw [hcool]
    simp only [alistGet_alistSet_self]
    have hne : ¬ ((t + a.cooldown == 0) = true) := by
      simp only [beq_iff_eq]
      omega
    rw [if_neg hne]
    exact decide_eq_true ht2
  have hfail := @useAbility_fails_on_cooldown (useAbility w t pid s tgt).2 t2 pid s tgt2 a
    ha hcd2
  exact ⟨hsucc, hfail.1, hfail.2⟩

/-- C5 witness: the second same-string call 1 ms after the first fails
while the first succeeded, and since the fixture player still has 450 aura
the failure message is the on-cooldown one with 1999 ms remaining. -/
theorem C5_amended_witness :
    (useAbility exWorld 1000 "p1" "stone_bullet" none).1.success = true ∧
    (useAbility (useAbility exWorld 1000 "p1" "stone_bullet" none).2
      1001 "p1" "stone_bullet" none).1.success = false ∧
    (useAbility (useAbility exWorld 1000 "p1" "stone_bullet" none).2
      1001 "p1" "stone_bullet" none).1.message =
      "Ability on cooldown (1999ms remaining)" := by
  have h := @C5_cooldown_same_name exWorld 1000 1001 "p1" "stone_bullet" none none basePlayer
    stoneBullet rfl rfl (by decide) (by decide) (by decide) (by decide) (by decide)
  refine ⟨h.1, h.2.1, ?_⟩
  have hm := h.2.2 { basePlayer with aura := 450 } (by decide) (by decide) (by decide)
  rw [hm]
  decide

theorem deleteMonster_id_isAlive {w : World} {mid : String} :
    ∀ m2 ∈ (deleteMonster w mid).monsters, m2.id = mid → m2.isAlive = false := by
  intro m2 hm2 hid
  rcases List.mem_map.1 hm2 with ⟨m0, _, rfl⟩
  by_cases h : (m0.id == mid) = true
  · rw [if_pos h]
  · rw [if_neg h] at hid ⊢
    exact absurd (beq_iff_eq.2 hid) h

theorem getMonstersInZone_delete_ne {w : World} {mid : String} (z : String) :
    ∀ m2 ∈ getMonstersInZone (deleteMonster w mid) z, m2.id ≠ mid := by
  intro m2 hm2 hid
  unfold getMonstersInZone at hm2
  have hflt := List.of_mem_filter hm2
  have hmem := List.mem_of_mem_filter hm2
  have hdead := deleteMonster_id_isAlive m2 hmem hid
  rcases Bool.and_eq_true_iff.1 hflt with ⟨_, halive⟩
  rw [hdead] at halive
  exact Bool.noConfusion halive

theorem award_delete_isAlive {w : World} {p : Player} {e : Int} {mid : String} :
    ∀ m2 ∈ (awardExperience (deleteMonster w mid) p e).monsters,
      m2.id = mid → m2.isAlive = false := by
  intro m2 hm2 hid
  rw [awardExperience_monsters] at hm2
  exact deleteMonster_id_isAlive m2 hm2 hid

theorem monstersInZone_award_delete {w : World} {p : Player} {e : Int} {mid : String} :
    ∀ (z : String), ∀ m2 ∈ getMonstersInZone (awardExperience (deleteMonster w mid) p e) z,
      m2.id ≠ mid := by
  intro z m2 hm2
  have h1 : getMonstersInZone (awardExperience (deleteMonster w mid) p e) z =
      getMonstersInZone (deleteMonster w mid) z := by
    unfold getMonstersInZone
    rw [awardExperience_monsters]
  rw [h1] at hm2
  exact getMonstersInZone_delete_ne z m2 hm2

theorem awardExperience_experience {w : World} {player q : Player} {e : Int}
    (hq : getPlayer w player.id = some q) :
    ∃ p2, getPlayer (awardExperience w player e) player.id = some p2 ∧
      p2.experience = player.experience + e := by
  by_cases hc : (Int.fdiv (player.experience + e) 100 + 1 > player.level ∧
      Int.fdiv (player.experience + e) 100 + 1 ≤ 100)
  · have he : awardExperience w player e = updatePlayer w player.id
        { experience := some (player.experience + e)
          level := some (Int.fdiv (player.experience + e) 100 + 1)
          maxHealth := some (1000 + (Int.fdiv (player.experience + e) 100 + 1) * 50)
          maxAura := some (500 + (Int.fdiv (player.experience + e) 100 + 1) * 25)
          health := some (1000 + (Int.fdiv (player.experience + e) 100 + 1) * 50)
          aura := some (500 + (Int.fdiv (player.experience + e) 100 + 1) * 25) } := by
      simp only [awardExperience, if_pos hc]
    rw [he]
    exact ⟨_, getPlayer_updatePlayer _ hq, rfl⟩
  · have he : awardExperience w player e = updatePlayer w player.id
        { experience := some (player.experience + e) } := by
      simp only [awardExperience, if_neg hc]
    rw [he]
    exact ⟨_, getPlayer_updatePlayer _ hq, rfl⟩

/-- C4: a successful ability use against a valid target monster whose
health is driven to 0 soft-deletes the monster (isAlive becomes false and
every row with its id is excluded from every subsequent getMonstersInZone
result) and grants the attacker experience equal to
floor(monsterLevel * 10 * (1 + rebirthCycle * 0.1)). -/
theorem C4_monster_kill {w : World} {t : Int} {pid s tid : String}
    {player : Player} {a : AbilityDefinition} {monster : Monster}
    (hp : getPlayer w pid = some player)
    (ha : resolveAbility s = some a)
    (hlv : ¬ player.level < a.requiredLevel)
    (hau : ¬ player.aura < a.auraCost)
    (hcd : ¬ (isOnCooldown w t pid s = true))
    (hfm : findNearbyMonster w player tid = some monster)
    (hkill : monster.health ≤ a.damage + Int.floor ((player.hiddenStrength : Rat) * (1 / 10))) :
    (useAbility w t pid s (some tid)).1.success = true ∧
    (∀ m2 ∈ (useAbility w t pid s (some tid)).2.monsters,
      m2.id = monster.id → m2.isAlive = false) ∧
    (∀ z : String, ∀ m2 ∈ getMonstersInZone (useAbility w t pid s (some tid)).2 z,
      m2.id ≠ monster.id) ∧
    (∃ p2, getPlayer (useAbility w t pid s (some tid)).2 pid = some p2 ∧
      p2.experience = player.experience +
        Int.floor ((monster.level * 10 : Rat) * (1 + (player.rebirthCycle : Rat) * (1 / 10)))) := by
  have hid : player.id = pid := getPlayer_id hp
  have hfm2 : findNearbyMonster (setCooldown (updatePlayer w pid
      { aura := some (player.aura - a.auraCost) }) t pid s a.cooldown) player tid =
      some monster := hfm
  have hkill2 : max 0 (monster.health - (a.damage +
      Int.floor ((player.hiddenStrength : Rat) * (1 / 10)))) ≤ 0 :=
    max_le (le_refl 0) (by linarith)
  have hw2 : (useAbility w t pid s (some tid)).2 =
      awardExperience
        (deleteMonster
          (updateMonsterHealth
            (setCooldown (updatePlayer w pid { aura := some (player.aura - a.auraCost) })
              t pid s a.cooldown)
            monster.id
            (max 0 (monster.health -
              (a.damage + Int.floor ((player.hiddenStrength : Rat) * (1 / 10))))))
          monster.id)
        player
        (Int.floor ((monster.level * 10 : Rat) *
          (1 + (player.rebirthCycle : Rat) * (1 / 10)))) := by
    simp only [useAbility, hp, ha, if_neg hlv, if_neg hau, if_neg hcd, hfm2, if_pos hkill2]
  have hsucc : (useAbility w t pid s (some tid)).1.success = true := by
    simp only [useAbility, hp, ha, if_neg hlv, if_neg hau, if_neg hcd]
  refine ⟨hsucc, ?_, ?_, ?_⟩
  · rw [hw2]
    exact award_delete_isAlive
  · rw [hw2]
    exact monstersInZone_award_delete
  · rw [hw2]
    have hq : getPlayer
        (deleteMonster
          (updateMonsterHealth
            (setCooldown (updatePlayer w pid { aura := some (player.aura - a.auraCost) })
              t pid s a.cooldown)
            monster.id
            (max 0 (monster.health -
              (a.damage + Int.floor ((player.hiddenStrength : Rat) * (1 / 10))))))
          monster.id)
        player.id = some (applyUpdates player { aura := some (player.aura - a.auraCost) }) := by
      show getPlayer (updatePlayer w pid { aura := some (player.aura - a.auraCost) })
        player.id = some (applyUpdates player { aura := some (player.aura - a.auraCost) })
      rw [hid]
      exact getPlayer_updatePlayer _ hp
    obtain ⟨p2, hg, hexp⟩ := awardExperience_experience hq
    rw [hid] at hg
    exact ⟨p2, hg, hexp⟩

set_option maxRecDepth 4000 in
/-- C4 witness: the fixture level-60 player kills the 250-health monster
with ground_dig_up (300 damage) and is granted 100 experience. -/
theorem C4_witness :
    (useAbility exWorld 1000 "p1" "ground_dig_up" (some "m1")).1.success = true ∧
    (getPlayer (useAbility exWorld 1000 "p1" "ground_dig_up" (some "m1")).2 "p1").map
      Player.experience = some 100 := by
  have h := @C4_monster_kill exWorld 1000 "p1" "ground_dig_up" "m1" basePlayer groundDigUp
    baseMonster rfl rfl (by decide) (by decide) (by decide)
    (of_decide_eq_true (by with_unfolding_all rfl))
    (of_decide_eq_true (by with_unfolding_all rfl))
  refine ⟨h.1, ?_⟩
  obtain ⟨p2, hgp, hexp⟩ := h.2.2.2
  rw [hgp, Option.map_some', hexp]
  show some ((0 : Int) + Int.floor ((10 * 10 : Rat) * (1 + (0 : Int) * (1 / 10) : Rat))) =
    some 100
  with_unfolding_all rfl

/-- C10: a useAbility call that passes every validation check but whose
target is absent or fails to name an alive in-zone monster within range 50
still succeeds, reports damage = ability.damage + floor(hiddenStrength * 0.1),
deducts the full aura cost (touching no other player field), arms the
cooldown for the full duration, and leaves every monster row unchanged. -/
theorem C10_no_target {w : World} {t : Int} {pid s : String} {tgt : Option String}
    {player : Player} {a : AbilityDefinition}
    (hp : getPlayer w pid = some player)
    (ha : resolveAbility s = some a)
    (hlv : ¬ player.level < a.requiredLevel)
    (hau : ¬ player.aura < a.auraCost)
    (hcd : ¬ (isOnCooldown w t pid s = true))
    (ht : 0 ≤ t)
    (htgt : ∀ tid, tgt = some tid → findNearbyMonster w player tid = none) :
    (useAbility w t pid s tgt).1.success = true ∧
    (useAbility w t pid s tgt).1.damage =
      some (a.damage + Int.floor ((player.hiddenStrength : Rat) * (1 / 10))) ∧
    (useAbility w t pid s tgt).2.monsters = w.monsters ∧
    getRemainingCooldown (useAbility w t pid s tgt).2 t pid s = a.cooldown ∧
    (∃ p2, getPlayer (useAbility w t pid s tgt).2 pid = some p2 ∧
      p2.aura = player.aura - a.auraCost ∧
      p2.health = player.health ∧ p2.maxHealth = player.maxHealth ∧
      p2.maxAura = player.maxAura ∧ p2.level = player.level ∧
      p2.experience = player.experience ∧
      p2.hiddenStrength = player.hiddenStrength) := by
  have hpos : 0 < a.cooldown := (abilitiesGet_cost_cooldown ha).2
  have hw2 : (useAbility w t pid s tgt).2 =
      setCooldown (updatePlayer w pid { aura := some (player.aura - a.auraCost) })
        t pid s a.cooldown := by
    simp only [useAbility, hp, ha, if_neg hlv, if_neg hau, if_neg hcd]
    cases tgt with
    | none => rfl
    | some tid =>
      have hfm2 : findNearbyMonster (setCooldown (updatePlayer w pid
          { aura := some (player.aura - a.auraCost) }) t pid s a.cooldown) player tid =
          none := htgt tid rfl
      simp only [hfm2]
  refine ⟨?_, ?_, ?_, ?_, ?_⟩
  · simp only [useAbility, hp, ha, if_neg hlv, if_neg hau, if_neg hcd]
  · simp only [useAbility, hp, ha, if_neg hlv, if_neg hau, if_neg hcd]
  · rw [hw2]
    rfl
  · rw [hw2]
    unfold getRemainingCooldown
    simp only [setCooldown, updatePlayer_cooldowns, alistGet_alistSet_self]
    have hne : ¬ ((t + a.cooldown == 0) = true) := by
      simp only [beq_iff_eq]
      omega
    rw [if_neg hne]
    have harith : t + a.cooldown - t = a.cooldown := by ring
    rw [harith]
    exact max_eq_right (le_of_lt hpos)
  · rw [hw2]
    exact ⟨_, getPlayer_updatePlayer _ hp, rfl, rfl, rfl, rfl, rfl, rfl, rfl⟩

/-- C10 witness: the fixture player casting stone_bullet with no target
succeeds, is charged 50 aura and has the 2000 ms cooldown armed. -/
theorem C10_witness :
    (useAbility exWorld 1000 "p1" "stone_bullet" none).1.success = true ∧
    (useAbility exWorld 1000 "p1" "stone_bullet" none).2.monsters = exWorld.monsters ∧
    getRemainingCooldown (useAbility exWorld 1000 "p1" "stone_bullet" none).2
      1000 "p1" "stone_bullet" = stoneBullet.cooldown := by
  have h := @C10_no_target exWorld 1000 "p1" "stone_bullet" none basePlayer stoneBullet
    rfl rfl (by decide) (by decide) (by decide) (by decide)
    (fun tid hcontra => Option.noConfusion hcontra)
  exact ⟨h.1, h.2.2.1, h.2.2.2.1⟩

end SwordKing
